import Mathlib

/-
Verification of the paginated continuation sync engine of a GitHub
Coda pack.  The file embeds, as Lean definitions, the pack wiring found
in src/src/pack.ts (parameter declarations, the repo-url autocomplete
loop) and, where the deciding code lives in the helpers module that is
not part of src/, models taken from the specification document.
Theorems about these definitions settle the frozen claims C1 to C10.
-/

namespace GithubPack

/-! ## Basic data model -/

/-- A repository reference, the result of resolving a repository URL:
owner and name of the repository. -/
structure RepositoryReference where
  owner : String
  name : String
deriving DecidableEq, Repr

/-- The GitHub host, as declared in pack.ts (export const HOST). -/
def HOST : String := "github.com"

/-- The API endpoint, as declared in pack.ts (export const API_ENDPOINT). -/
def API_ENDPOINT : String := "https://github.com/api/v4"

/-- Error raised when a repository URL does not have the expected shape. -/
inductive ResolveError where
  | invalidReference
deriving DecidableEq, Repr

/-! ## RepoResolver

The resolver itself lives in the helpers module, which is not under
src/; it is modelled from the specification (section 4.1). -/

/-- Split a character list into the segments between slash characters. -/
def splitSeg : List Char → List (List Char)
  | [] => [[]]
  | c :: rest =>
    if c = '/' then [] :: splitSeg rest
    else
      match splitSeg rest with
      | s :: ss => (c :: s) :: ss
      | [] => [[c]]

/-- Strip a leading https or http scheme from a character list. -/
def stripScheme : List Char → List Char
  | 'h' :: 't' :: 't' :: 'p' :: 's' :: ':' :: '/' :: '/' :: rest => rest
  | 'h' :: 't' :: 't' :: 'p' :: ':' :: '/' :: '/' :: rest => rest
  | cs => cs

/-- Drop one trailing empty segment, which arises from a trailing slash. -/
def dropTrailingEmpty (segs : List (List Char)) : List (List Char) :=
  match segs.getLast? with
  | some [] => segs.dropLast
  | _ => segs

/-- The segments of a URL string: scheme stripped, split on slashes, one
trailing empty segment tolerated. -/
def urlSegments (url : String) : List (List Char) :=
  dropTrailingEmpty (splitSeg (stripScheme url.toList))

/-- Validation of the segment list of a repository URL: exactly three
segments, the first being the expected host, owner and name non-empty. -/
def resolveSegs : List (List Char) → Except ResolveError RepositoryReference
  | [host, owner, name] =>
    if host = HOST.toList ∧ owner ≠ [] ∧ name ≠ [] then
      Except.ok ⟨owner.asString, name.asString⟩
    else
      Except.error ResolveError.invalidReference
  | _ => Except.error ResolveError.invalidReference

/-- Modelled from the spec: RepoResolver.resolve (the helpers module is
absent from src/).  Parses a repository URL into owner and name,
tolerating a trailing slash and http in place of https, and fails with
InvalidReferenceError when the string does not match the expected
host/owner/name shape (missing segments, empty owner or name, wrong
host).  Pure, no side effects. -/
def resolve (url : String) : Except ResolveError RepositoryReference :=
  resolveSegs (urlSegments url)

/-! ## Pagination data model -/

/-- The fields of a GitHub repo record that the autocomplete reads. -/
structure GitHubRepo where
  name : String
  html_url : String
deriving DecidableEq, Repr

/-- A continuation value as used by the autocomplete loop in pack.ts: a
record carrying an optional next-page URL. -/
structure Continuation where
  nextUrl : Option String
deriving DecidableEq, Repr

/-- Error kinds of the page fetcher, from the spec error taxonomy. -/
inductive FetchError where
  | transient
  | remoteRejected (status : Nat)
  | malformed
deriving DecidableEq, Repr

/-- One page of results: the records of the page and the continuation
for the next page, none on the final page. -/
structure PageResult where
  result : List GitHubRepo
  continuation : Option Continuation
deriving DecidableEq, Repr

/-- Truthiness of the loop guard in pack.ts, which reads
continuation and then continuation.nextUrl: the loop continues only when
the continuation is present and its nextUrl field is present and
non-empty, since a missing field and an empty string are both falsy in
the source language. -/
def contTruthy : Option Continuation → Bool
  | none => false
  | some c =>
    match c.nextUrl with
    | none => false
    | some s => !s.isEmpty

/-- Outcome of the aggregation loop: success with the accumulated
records and the number of fetches performed, failure of some fetch with
the number of fetches performed, or fuel exhaustion. -/
inductive LoopOutcome where
  | ok (repos : List GitHubRepo) (fetches : Nat)
  | fail (e : FetchError) (fetches : Nat)
  | outOfFuel
deriving DecidableEq, Repr

/-- The do-while aggregation loop of the repoUrl autocomplete in
pack.ts: fetch a page, append its records to the accumulator, read the
returned continuation, and continue while that continuation is truthy.
The sequence of fetch outcomes is abstracted as a function from the
fetch index; fuel bounds the number of iterations so the function is
total. -/
def autoLoop (resp : Nat → Except FetchError PageResult) :
    Nat → Nat → List GitHubRepo → LoopOutcome
  | 0, _, _ => LoopOutcome.outOfFuel
  | fuel + 1, i, acc =>
    match resp i with
    | Except.error e => LoopOutcome.fail e (i + 1)
    | Except.ok p =>
      if contTruthy p.continuation then
        autoLoop resp fuel (i + 1) (acc ++ p.result)
      else
        LoopOutcome.ok (acc ++ p.result) (i + 1)

/-- Boolean test that the needle occurs as a contiguous sublist of the
haystack. -/
def isSubList (needle : List Char) : List Char → Bool
  | [] => needle.isEmpty
  | c :: rest => needle.isPrefixOf (c :: rest) || isSubList needle rest

/-- The characters of a string, each lowered. -/
def lowerChars (s : String) : List Char :=
  s.toList.map Char.toLower

/-- Case-insensitive substring match of the search text against a
display name. -/
def matchesSearch (search name : String) : Bool :=
  isSubList (lowerChars search) (lowerChars name)

/-- A labeled autocomplete entry: a display label and a value. -/
structure AutoResult where
  display : String
  value : String
deriving DecidableEq, Repr

/-- Modelled from the spec: coda.autocompleteSearchObjects (an SDK
helper, not part of src/), as described in section 4.6: a
case-insensitive substring match of the search text against the name
field of each record, preserving the original order among matches,
labeling each entry by its name and valuing it by its html_url. -/
def autocompleteSearchObjects (search : String) (objs : List GitHubRepo) :
    List AutoResult :=
  (objs.filter fun r => matchesSearch search r.name).map
    fun r => ⟨r.name, r.html_url⟩

/-- Outcome of the whole autocomplete formula. -/
inductive AutoOutcome where
  | ok (entries : List AutoResult)
  | fail (e : FetchError)
  | outOfFuel
deriving DecidableEq, Repr

/-- The repoUrl autocomplete formula of pack.ts: run the aggregation
loop to exhaustion, then search the accumulated records. -/
def repoUrlAutocomplete (resp : Nat → Except FetchError PageResult)
    (fuel : Nat) (search : String) : AutoOutcome :=
  match autoLoop resp fuel 0 [] with
  | LoopOutcome.ok repos _ =>
      AutoOutcome.ok (autocompleteSearchObjects search repos)
  | LoopOutcome.fail e _ => AutoOutcome.fail e
  | LoopOutcome.outOfFuel => AutoOutcome.outOfFuel

/-- Concatenation of the record lists of pages j, j+1, ..., j+n-1. -/
def pagesJoin (pages : Nat → PageResult) : Nat → Nat → List GitHubRepo
  | _, 0 => []
  | j, n + 1 => (pages j).result ++ pagesJoin pages (j + 1) n

/-! ## Sync step and driver, modelled from the spec -/

/-- Modelled from the spec: SyncStep (helpers getPullRequests and
getIssues are absent from src/), over an abstract remote service given
as the list of pages it would return for the filtered query.  The
continuation is the index of the next page; on the initial call, with
continuation none, the first page is fetched.  Returns the page rows and
the next continuation, which is none exactly on the final page. -/
def syncStep {α : Type} (svc : List (List α)) (c : Option Nat) :
    List α × Option Nat :=
  let k := c.getD 0
  (svc.getD k [], if k + 1 < svc.length then some (k + 1) else none)

/-- The external driver described by the spec: call syncStep, first with
continuation none, then repeatedly feed the returned continuation back
until it is none, concatenating the returned rows.  Fuel bounds the
number of calls so the function is total. -/
def runSync {α : Type} (svc : List (List α)) : Nat → Option Nat → List α
  | 0, _ => []
  | fuel + 1, c =>
    (syncStep svc c).1 ++
      (match (syncStep svc c).2 with
        | none => []
        | some k => runSync svc fuel (some k))

/-! ## RequestBuilder, modelled from the spec -/

/-- The resource kinds supported by the request builder. -/
inductive ResourceKind where
  | repos
  | pullRequests
  | issues
deriving DecidableEq, Repr

/-- The filter parameters of a sync: optional base branch and optional
state. -/
structure FilterSet where
  base : Option String
  state : Option String
deriving DecidableEq, Repr

/-- An outbound request: a URL and query parameters. -/
structure HttpRequestSpec where
  url : String
  query : List (String × String)
deriving DecidableEq, Repr

/-- The list endpoint for a resource kind of a repository. -/
def endpointFor (kind : ResourceKind) (repo : RepositoryReference) :
    String :=
  match kind with
  | ResourceKind.repos => API_ENDPOINT ++ "/user/repos"
  | ResourceKind.pullRequests =>
      API_ENDPOINT ++ "/repos/" ++ repo.owner ++ "/" ++ repo.name
        ++ "/pulls"
  | ResourceKind.issues =>
      API_ENDPOINT ++ "/repos/" ++ repo.owner ++ "/" ++ repo.name
        ++ "/issues"

/-- The query parameters of a first-page request: the optional base
branch filter, and the state filter defaulted to open when
unspecified. -/
def filterQuery (filters : FilterSet) : List (String × String) :=
  (match filters.base with
    | some b => [("base", b)]
    | none => []) ++ [("state", filters.state.getD "open")]

/-- Modelled from the spec: RequestBuilder.build (the helpers module is
absent from src/).  On the first call, with continuation none, the
initial list endpoint is constructed with the filters encoded as query
parameters; on subsequent calls the continuation token is reused
verbatim as the full next request and the filters are not applied a
second time. -/
def build (kind : ResourceKind) (repo : RepositoryReference)
    (filters : FilterSet) (continuation : Option String) :
    HttpRequestSpec :=
  match continuation with
  | some tok => ⟨tok, []⟩
  | none => ⟨endpointFor kind repo, filterQuery filters⟩

/-! ## Parameter declarations of pack.ts -/

/-- The value type of a declared parameter. -/
inductive ParameterType where
  | string
  | number
  | stringArray
deriving DecidableEq, Repr

/-- A parameter declaration: its type, name, description and whether it
is optional.  In the source, makeParameter treats a parameter as
required unless optional is set to true. -/
structure ParamDecl where
  ptype : ParameterType
  name : String
  description : String
  optional : Bool
deriving DecidableEq, Repr

/-- The repoUrl parameter of pack.ts. -/
def RepoUrlParameter : ParamDecl :=
  ⟨ParameterType.string, "repoUrl",
    "The URL of the repository to list pull requests from. For example, \"https://github.com/[org]/[repo]\".",
    false⟩

/-- The optional base branch parameter of pack.ts. -/
def BaseParameterOptional : ParamDecl :=
  ⟨ParameterType.string, "base",
    "The name of the base branch. For example, \"main\".", true⟩

/-- The optional pull request state parameter of pack.ts. -/
def PullRequestStateOptional : ParamDecl :=
  ⟨ParameterType.string, "state",
    "Returns pull requests in the given state. If unspecified, defaults to \"open\".",
    true⟩

/-- The optional issue state parameter of pack.ts, declared inline in
the Issues sync table with these fields. -/
def IssueStateOptional : ParamDecl :=
  ⟨ParameterType.string, "state",
    "Returns issues in the given state. If unspecified, defaults to \"open\".",
    true⟩

/-- The issueNumber parameter of pack.ts; optional is not set, so the
parameter is required. -/
def IssueNumberParameter : ParamDecl :=
  ⟨ParameterType.number, "issueNumber", "The number of the issue.",
    false⟩

/-- The optional title parameter used by UpdateIssue. -/
def IssueTitleParameter : ParamDecl :=
  ⟨ParameterType.string, "title", "The title of the issue.", true⟩

/-- The optional body parameter used by UpdateIssue. -/
def IssueBodyParameter : ParamDecl :=
  ⟨ParameterType.string, "body", "The body content of the issue.", true⟩

/-- The optional state parameter used by UpdateIssue. -/
def IssueStateParameter : ParamDecl :=
  ⟨ParameterType.string, "state",
    "The state of the issue. Can be \"open\" or \"closed\".", true⟩

/-- The title parameter used by CreateIssue; optional is not set, so the
parameter is required. -/
def TitleParameter : ParamDecl :=
  ⟨ParameterType.string, "title", "The title of the issue.", false⟩

/-- The optional body parameter used by CreateIssue. -/
def BodyParameter : ParamDecl :=
  ⟨ParameterType.string, "body", "The body content of the issue.", true⟩

/-- The optional labels parameter used by CreateIssue, a comma-separated
string. -/
def LabelsParameter : ParamDecl :=
  ⟨ParameterType.string, "labels",
    "Comma-separated list of labels to assign to the issue.", true⟩

/-- The optional assignees parameter used by CreateIssue, a
comma-separated string. -/
def AssigneesParameter : ParamDecl :=
  ⟨ParameterType.string, "assignees",
    "Comma-separated list of assignees for the issue.", true⟩

/-- The parameter list of the PullRequests sync formula in pack.ts. -/
def PullRequestsParameters : List ParamDecl :=
  [RepoUrlParameter, BaseParameterOptional, PullRequestStateOptional]

/-- The parameter list of the SyncIssues sync formula in pack.ts. -/
def SyncIssuesParameters : List ParamDecl :=
  [RepoUrlParameter, IssueStateOptional]

/-- The parameter list of the UpdateIssue action formula in pack.ts. -/
def UpdateIssueParameters : List ParamDecl :=
  [RepoUrlParameter, IssueNumberParameter, IssueTitleParameter,
    IssueBodyParameter, IssueStateParameter]

/-- The parameter list of the CreateIssue action formula in pack.ts. -/
def CreateIssueParameters : List ParamDecl :=
  [RepoUrlParameter, TitleParameter, BodyParameter, LabelsParameter,
    AssigneesParameter]

/-- Names of the required, that is non-optional, parameters of a
formula, in declaration order. -/
def requiredNames (ps : List ParamDecl) : List String :=
  (ps.filter fun p => !p.optional).map ParamDecl.name

/-- Names of the optional parameters of a formula, in declaration
order. -/
def optionalNames (ps : List ParamDecl) : List String :=
  (ps.filter fun p => p.optional).map ParamDecl.name

/-! ## Witness fixtures: concrete pages and fetch sequences -/

/-- A concrete repo record for witnesses. -/
def wRepoA : GitHubRepo := ⟨"alpha", "https://github.com/acme/alpha"⟩

/-- A second concrete repo record for witnesses. -/
def wRepoB : GitHubRepo := ⟨"beta", "https://github.com/acme/beta"⟩

/-- A two-page sequence: the first page links to a second, final page. -/
def wPages : Nat → PageResult := fun i =>
  if i = 0 then ⟨[wRepoA], some ⟨some "next"⟩⟩ else ⟨[wRepoB], none⟩

/-- Fetch outcomes in which every fetch succeeds with wPages. -/
def wResp : Nat → Except FetchError PageResult := fun i =>
  Except.ok (wPages i)

/-- Fetch outcomes in which the second fetch fails. -/
def wRespErr : Nat → Except FetchError PageResult := fun i =>
  if i = 0 then Except.ok (wPages 0) else Except.error FetchError.transient

/-- A two-page sequence whose second page carries a non-null
continuation with an empty nextUrl. -/
def wPagesEmptyUrl : Nat → PageResult := fun i =>
  if i = 0 then ⟨[wRepoA], some ⟨some "next"⟩⟩
  else ⟨[wRepoB], some ⟨some ""⟩⟩

/-- Fetch outcomes for wPagesEmptyUrl. -/
def wRespEmptyUrl : Nat → Except FetchError PageResult := fun i =>
  Except.ok (wPagesEmptyUrl i)

/-- A two-page sequence whose second page has zero records and a null
continuation. -/
def wPagesEmptyEnd : Nat → PageResult := fun i =>
  if i = 0 then ⟨[wRepoA], some ⟨some "next"⟩⟩ else ⟨[], none⟩

/-- Fetch outcomes for wPagesEmptyEnd. -/
def wRespEmptyEnd : Nat → Except FetchError PageResult := fun i =>
  Except.ok (wPagesEmptyEnd i)

/-! ### Resolver lemmas -/

theorem splitSeg_no_slash (xs : List Char) (h : '/' ∉ xs) :
    splitSeg xs = [xs] := by
  induction xs with
  | nil => rfl
  | cons c rest ih =>
    have hc : ¬ c = '/' := fun hc => h (hc ▸ List.mem_cons_self c rest)
    have hr : '/' ∉ rest := fun hm => h (List.mem_cons_of_mem c hm)
    simp [splitSeg, hc, ih hr]

theorem splitSeg_append_slash (xs ys : List Char) (h : '/' ∉ xs) :
    splitSeg (xs ++ '/' :: ys) = xs :: splitSeg ys := by
  induction xs with
  | nil => simp [splitSeg]
  | cons c rest ih =>
    have hc : ¬ c = '/' := fun hc => h (hc ▸ List.mem_cons_self c rest)
    have hr : '/' ∉ rest := fun hm => h (List.mem_cons_of_mem c hm)
    simp [splitSeg, hc, ih hr]

theorem string_toList_append (a b : String) :
    (a ++ b).toList = a.toList ++ b.toList := rfl

theorem dropTrailingEmpty_of_ne (segs : List (List Char))
    (h : segs.getLast? ≠ some []) : dropTrailingEmpty segs = segs := by
  unfold dropTrailingEmpty
  cases hl : segs.getLast? with
  | none => rfl
  | some v =>
    cases v with
    | nil => exact absurd hl h
    | cons c cs => rfl

theorem stripScheme_https (rest : List Char) :
    stripScheme ('h' :: 't' :: 't' :: 'p' :: 's' :: ':' :: '/' :: '/' :: rest)
      = rest := rfl

theorem stripScheme_http (rest : List Char) :
    stripScheme ('h' :: 't' :: 't' :: 'p' :: ':' :: '/' :: '/' :: rest)
      = rest := rfl

theorem stripScheme_url (x : List Char) :
    stripScheme ("https://github.com/".toList ++ x)
      = "github.com".toList ++ '/' :: x := rfl

theorem stripScheme_url_http (x : List Char) :
    stripScheme ("http://github.com/".toList ++ x)
      = "github.com".toList ++ '/' :: x := rfl

theorem no_slash_host : '/' ∉ "github.com".toList := by decide

theorem urlSegments_core (o n : List Char) (hso : '/' ∉ o) (hsn : '/' ∉ n)
    (hn : n ≠ []) (s : String)
    (hs : s.toList = "https://github.com/".toList ++ (o ++ '/' :: n)) :
    urlSegments s = ["github.com".toList, o, n] := by
  unfold urlSegments
  rw [hs, stripScheme_url, splitSeg_append_slash _ _ no_slash_host,
    splitSeg_append_slash _ _ hso, splitSeg_no_slash _ hsn]
  apply dropTrailingEmpty_of_ne
  simpa using hn

theorem urlSegments_core_http (o n : List Char) (hso : '/' ∉ o)
    (hsn : '/' ∉ n) (hn : n ≠ []) (s : String)
    (hs : s.toList = "http://github.com/".toList ++ (o ++ '/' :: n)) :
    urlSegments s = ["github.com".toList, o, n] := by
  unfold urlSegments
  rw [hs, stripScheme_url_http, splitSeg_append_slash _ _ no_slash_host,
    splitSeg_append_slash _ _ hso, splitSeg_no_slash _ hsn]
  apply dropTrailingEmpty_of_ne
  simpa using hn

theorem urlSegments_core_trailing (o n : List Char) (hso : '/' ∉ o)
    (hsn : '/' ∉ n) (s : String)
    (hs : s.toList
      = "https://github.com/".toList ++ (o ++ '/' :: (n ++ ['/']))) :
    urlSegments s = ["github.com".toList, o, n] := by
  unfold urlSegments
  rw [hs, stripScheme_url, splitSeg_append_slash _ _ no_slash_host,
    splitSeg_append_slash _ _ hso]
  have h1 : n ++ ['/'] = n ++ '/' :: ([] : List Char) := rfl
  rw [h1, splitSeg_append_slash _ _ hsn]
  have h2 : splitSeg [] = [[]] := rfl
  rw [h2]
  unfold dropTrailingEmpty
  simp [List.getLast?, List.dropLast]

theorem resolve_of_segments (s : String) (o n : List Char)
    (hseg : urlSegments s = ["github.com".toList, o, n])
    (ho : o ≠ []) (hn : n ≠ []) :
    resolve s = Except.ok ⟨o.asString, n.asString⟩ := by
  unfold resolve
  rw [hseg]
  have hh : ("github.com".toList = HOST.toList ∧ o ≠ [] ∧ n ≠ []) :=
    ⟨rfl, ho, hn⟩
  show (if "github.com".toList = HOST.toList ∧ o ≠ [] ∧ n ≠ []
    then Except.ok (⟨o.asString, n.asString⟩ : RepositoryReference)
    else Except.error ResolveError.invalidReference)
      = Except.ok (⟨o.asString, n.asString⟩ : RepositoryReference)
  rw [if_pos hh]

theorem resolveSegs_bad_length (l : List (List Char)) (h : l.length ≠ 3) :
    resolveSegs l = Except.error ResolveError.invalidReference := by
  rcases l with _ | ⟨a, _ | ⟨b, _ | ⟨c, _ | ⟨d, rest⟩⟩⟩⟩
  · rfl
  · rfl
  · rfl
  · simp at h
  · rfl

theorem resolveSegs_bad_fields (h o n : List Char)
    (hbad : ¬(h = HOST.toList ∧ o ≠ [] ∧ n ≠ [])) :
    resolveSegs [h, o, n] = Except.error ResolveError.invalidReference := by
  show (if h = HOST.toList ∧ o ≠ [] ∧ n ≠ []
    then Except.ok (⟨o.asString, n.asString⟩ : RepositoryReference)
    else Except.error ResolveError.invalidReference)
      = Except.error ResolveError.invalidReference
  rw [if_neg hbad]

theorem repoUrl_toList (owner name : String) :
    ("https://github.com/" ++ owner ++ "/" ++ name).toList
      = "https://github.com/".toList
          ++ (owner.toList ++ '/' :: name.toList) := by
  simp only [string_toList_append, List.append_assoc]
  rw [show ("/" : String).toList = ['/'] from rfl, List.singleton_append]

theorem repoUrl_toList_trailing (owner name : String) :
    ("https://github.com/" ++ owner ++ "/" ++ name ++ "/").toList
      = "https://github.com/".toList
          ++ (owner.toList ++ '/' :: (name.toList ++ ['/'])) := by
  simp only [string_toList_append, List.append_assoc]
  rw [show ("/" : String).toList = ['/'] from rfl, List.singleton_append]

theorem repoUrl_toList_http (owner name : String) :
    ("http://github.com/" ++ owner ++ "/" ++ name).toList
      = "http://github.com/".toList
          ++ (owner.toList ++ '/' :: name.toList) := by
  simp only [string_toList_append, List.append_assoc]
  rw [show ("/" : String).toList = ['/'] from rfl, List.singleton_append]

/-- Claim C4: resolve is a pure function; every URL of the form
https host/owner/name, optionally with a trailing slash and with http
in place of https, resolves to exactly that owner and name, and every
string lacking two path segments, or with empty owner or name or the
wrong host, fails with InvalidReferenceError. -/
theorem repoResolver_resolve_correct :
    (∀ owner name : String,
      owner.toList ≠ [] → name.toList ≠ [] →
      '/' ∉ owner.toList → '/' ∉ name.toList →
      resolve ("https://github.com/" ++ owner ++ "/" ++ name)
          = Except.ok ⟨owner, name⟩ ∧
      resolve ("https://github.com/" ++ owner ++ "/" ++ name ++ "/")
          = Except.ok ⟨owner, name⟩ ∧
      resolve ("http://github.com/" ++ owner ++ "/" ++ name)
          = Except.ok ⟨owner, name⟩) ∧
    (∀ url : String, (urlSegments url).length ≠ 3 →
      resolve url = Except.error ResolveError.invalidReference) ∧
    (∀ url : String, ∀ host owner name : List Char,
      urlSegments url = [host, owner, name] →
      ¬(host = HOST.toList ∧ owner ≠ [] ∧ name ≠ []) →
      resolve url = Except.error ResolveError.invalidReference) := by
  refine ⟨fun owner name ho hn hso hsn => ?_, fun url h => ?_,
    fun url host o n hseg hbad => ?_⟩
  · refine ⟨?_, ?_, ?_⟩
    · have h1 := resolve_of_segments _ _ _
        (urlSegments_core owner.toList name.toList hso hsn hn _
          (repoUrl_toList owner name)) ho hn
      rwa [String.asString_toList, String.asString_toList] at h1
    · have h1 := resolve_of_segments _ _ _
        (urlSegments_core_trailing owner.toList name.toList hso hsn _
          (repoUrl_toList_trailing owner name)) ho hn
      rwa [String.asString_toList, String.asString_toList] at h1
    · have h1 := resolve_of_segments _ _ _
        (urlSegments_core_http owner.toList name.toList hso hsn hn _
          (repoUrl_toList_http owner name)) ho hn
      rwa [String.asString_toList, String.asString_toList] at h1
  · exact resolveSegs_bad_length _ h
  · unfold resolve
    rw [hseg]
    exact resolveSegs_bad_fields host o n hbad

/-- Concrete instance of claim C4: a well-formed URL resolves, a
malformed string is rejected. -/
theorem repoResolver_resolve_correct_witness :
    resolve ("https://github.com/" ++ "acme" ++ "/" ++ "widgets")
        = Except.ok ⟨"acme", "widgets"⟩ ∧
    resolve "nonsense" = Except.error ResolveError.invalidReference :=
  ⟨(repoResolver_resolve_correct.1 "acme" "widgets" (by decide) (by decide)
      (by decide) (by decide)).1,
    repoResolver_resolve_correct.2.1 "nonsense" (by decide)⟩

/-! ### Aggregation loop lemmas -/

theorem autoLoop_succ (resp : Nat → Except FetchError PageResult)
    (fuel i : Nat) (acc : List GitHubRepo) :
    autoLoop resp (fuel + 1) i acc
      = match resp i with
        | Except.error e => LoopOutcome.fail e (i + 1)
        | Except.ok p =>
          if contTruthy p.continuation then
            autoLoop resp fuel (i + 1) (acc ++ p.result)
          else LoopOutcome.ok (acc ++ p.result) (i + 1) := rfl

theorem pagesJoin_snoc (pages : Nat → PageResult) (j n : Nat) :
    pagesJoin pages j (n + 1)
      = pagesJoin pages j n ++ (pages (j + n)).result := by
  induction n generalizing j with
  | zero => simp [pagesJoin]
  | succ n ih =>
    rw [show pagesJoin pages j (n + 1 + 1)
      = (pages j).result ++ pagesJoin pages (j + 1) (n + 1) from rfl]
    rw [ih (j + 1)]
    rw [show pagesJoin pages j (n + 1)
      = (pages j).result ++ pagesJoin pages (j + 1) n from rfl]
    rw [List.append_assoc]
    have h2 : j + 1 + n = j + (n + 1) := by omega
    rw [h2]

theorem pagesJoin_eq_flatten (pages : Nat → PageResult) (n : Nat) :
    pagesJoin pages 0 n
      = ((List.range n).map fun k => (pages k).result).flatten := by
  induction n with
  | zero => rfl
  | succ n ih =>
    rw [pagesJoin_snoc, ih, List.range_succ]
    simp

theorem autoLoop_shift (resp : Nat → Except FetchError PageResult)
    (pages : Nat → PageResult) :
    ∀ (n j fuel : Nat) (acc : List GitHubRepo),
      (∀ i, j ≤ i → i < j + n → resp i = Except.ok (pages i)) →
      (∀ i, j ≤ i → i < j + n →
        contTruthy (pages i).continuation = true) →
      n ≤ fuel →
      autoLoop resp fuel j acc
        = autoLoop resp (fuel - n) (j + n) (acc ++ pagesJoin pages j n) := by
  intro n
  induction n with
  | zero =>
    intro j fuel acc hok htr hle
    simp [pagesJoin]
  | succ n ih =>
    intro j fuel acc hok htr hle
    cases fuel with
    | zero => omega
    | succ f =>
      have hj : resp j = Except.ok (pages j) :=
        hok j (Nat.le_refl j) (by omega)
      have ht : contTruthy (pages j).continuation = true :=
        htr j (Nat.le_refl j) (by omega)
      have hstep : autoLoop resp (f + 1) j acc
          = autoLoop resp f (j + 1) (acc ++ (pages j).result) := by
        rw [autoLoop_succ, hj]
        simp [ht]
      rw [hstep]
      rw [ih (j + 1) f (acc ++ (pages j).result)
        (fun i h1 h2 => hok i (by omega) (by omega))
        (fun i h1 h2 => htr i (by omega) (by omega)) (by omega)]
      have h1 : f - n = f + 1 - (n + 1) := by omega
      have h2 : j + 1 + n = j + (n + 1) := by omega
      have h3 : acc ++ (pages j).result ++ pagesJoin pages (j + 1) n
          = acc ++ pagesJoin pages j (n + 1) := by
        rw [List.append_assoc]
        rfl
      rw [h1, h2, h3]

theorem autoLoop_settles (resp : Nat → Except FetchError PageResult)
    (pages : Nat → PageResult) (n fuel : Nat)
    (hok : ∀ i, i ≤ n → resp i = Except.ok (pages i))
    (htr : ∀ i, i < n → contTruthy (pages i).continuation = true)
    (hstop : contTruthy (pages n).continuation = false)
    (hfuel : n < fuel) :
    autoLoop resp fuel 0 []
      = LoopOutcome.ok (pagesJoin pages 0 (n + 1)) (n + 1) := by
  rw [autoLoop_shift resp pages n 0 fuel []
    (fun i h1 h2 => hok i (by omega))
    (fun i h1 h2 => htr i (by omega)) (by omega)]
  simp only [Nat.zero_add, List.nil_append]
  obtain ⟨f, hf⟩ : ∃ f, fuel - n = f + 1 := ⟨fuel - n - 1, by omega⟩
  rw [hf, autoLoop_succ, hok n (Nat.le_refl n)]
  simp [hstop, pagesJoin_snoc]

theorem autoLoop_settles_err (resp : Nat → Except FetchError PageResult)
    (pages : Nat → PageResult) (n fuel : Nat) (e : FetchError)
    (hok : ∀ i, i < n → resp i = Except.ok (pages i))
    (htr : ∀ i, i < n → contTruthy (pages i).continuation = true)
    (herr : resp n = Except.error e)
    (hfuel : n < fuel) :
    autoLoop resp fuel 0 [] = LoopOutcome.fail e (n + 1) := by
  rw [autoLoop_shift resp pages n 0 fuel []
    (fun i h1 h2 => hok i (by omega))
    (fun i h1 h2 => htr i (by omega)) (by omega)]
  simp only [Nat.zero_add, List.nil_append]
  obtain ⟨f, hf⟩ : ∃ f, fuel - n = f + 1 := ⟨fuel - n - 1, by omega⟩
  rw [hf, autoLoop_succ, herr]

/-! ### Sync driver lemmas -/

theorem runSync_succ {α : Type} (svc : List (List α)) (fuel : Nat)
    (c : Option Nat) :
    runSync svc (fuel + 1) c
      = (syncStep svc c).1 ++
          (match (syncStep svc c).2 with
            | none => []
            | some k => runSync svc fuel (some k)) := rfl

theorem runSync_drop {α : Type} (svc : List (List α)) :
    ∀ (fuel k : Nat), svc.length - k ≤ fuel →
      runSync svc fuel (some k) = (svc.drop k).flatten := by
  intro fuel
  induction fuel with
  | zero =>
    intro k h
    have hk : svc.length ≤ k := by omega
    rw [List.drop_eq_nil_of_le hk]
    rfl
  | succ f ih =>
    intro k h
    rw [runSync_succ]
    by_cases hk : k + 1 < svc.length
    · simp only [syncStep, Option.getD_some, hk, if_true]
      rw [ih (k + 1) (by omega)]
      rw [List.getD_eq_getElem svc [] (show k < svc.length by omega),
        List.drop_eq_getElem_cons (show k < svc.length by omega),
        List.flatten_cons]
    · simp only [syncStep, Option.getD_some, hk, if_false]
      by_cases hk2 : k < svc.length
      · have hdrop : svc.drop (k + 1) = [] :=
          List.drop_eq_nil_of_le (by omega)
        rw [List.getD_eq_getElem svc [] hk2,
          List.drop_eq_getElem_cons hk2, hdrop, List.flatten_cons]
        simp
      · have hdrop : svc.drop k = [] := List.drop_eq_nil_of_le (by omega)
        have hgd : svc.getD k [] = [] :=
          List.getD_eq_default svc [] (show svc.length ≤ k by omega)
        rw [hdrop, hgd]
        rfl

/-! ### Claim theorems -/

/-- Claim C1: concatenating the rows returned by a sequence of sync
step calls, the first with continuation none and each later call fed
the prior continuation, until the continuation is none, yields exactly
the records the remote service would return for the query, in page
order, with no duplication and no omission. -/
theorem syncStep_sequence_complete {α : Type} (svc : List (List α))
    (fuel : Nat) (hfuel : svc.length ≤ fuel) :
    runSync svc fuel none = svc.flatten := by
  cases fuel with
  | zero =>
    cases svc with
    | nil => rfl
    | cons a t => simp at hfuel
  | succ f =>
    have h0 : runSync svc (f + 1) none = runSync svc (f + 1) (some 0) :=
      rfl
    rw [h0, runSync_drop svc (f + 1) 0 (by omega)]
    rfl

/-- Concrete instance of claim C1: a two page service is synced in full
across two driven steps. -/
theorem syncStep_sequence_complete_witness :
    runSync [[1], [2, 3]] 2 none = [1, 2, 3] := by
  rw [syncStep_sequence_complete [[1], [2, 3]] 2 (by decide)]
  rfl

/-- Claim C2: once a non-null continuation exists, request construction
ignores everything but the token: for any two filter sets the built
requests are identical, and the built request is the token reused
verbatim as the full next request, exactly what the page fetcher would
receive for the manually constructed next page. -/
theorem build_ignores_filters_on_continuation :
    ∀ (kind : ResourceKind) (repo : RepositoryReference)
      (f1 f2 : FilterSet) (t : String),
      build kind repo f1 (some t) = build kind repo f2 (some t) ∧
      build kind repo f1 (some t) = ⟨t, []⟩ :=
  fun _ _ _ _ _ => ⟨rfl, rfl⟩

/-- Claim C3: the repoUrl autocomplete drives repeated fetches of the
Repos resource to exhaustion inside a single call, sequentially in page
order, accumulating the records of every page in order, and only the
fully accumulated list is handed to the search. -/
theorem autocomplete_aggregates_to_exhaustion
    (resp : Nat → Except FetchError PageResult)
    (pages : Nat → PageResult) (n fuel : Nat) (search : String)
    (hok : ∀ i, i ≤ n → resp i = Except.ok (pages i))
    (htr : ∀ i, i < n → contTruthy (pages i).continuation = true)
    (hstop : contTruthy (pages n).continuation = false)
    (hfuel : n < fuel) :
    autoLoop resp fuel 0 []
      = LoopOutcome.ok
          (((List.range (n + 1)).map fun k => (pages k).result).flatten)
          (n + 1) ∧
    repoUrlAutocomplete resp fuel search
      = AutoOutcome.ok (autocompleteSearchObjects search
          (((List.range (n + 1)).map fun k => (pages k).result).flatten))
    := by
  have h := autoLoop_settles resp pages n fuel hok htr hstop hfuel
  rw [pagesJoin_eq_flatten] at h
  refine ⟨h, ?_⟩
  unfold repoUrlAutocomplete
  rw [h]

/-- Concrete instance of claim C3: two pages are aggregated in order
and then searched. -/
theorem autocomplete_aggregates_to_exhaustion_witness :
    autoLoop wResp 5 0 [] = LoopOutcome.ok [wRepoA, wRepoB] 2 ∧
    repoUrlAutocomplete wResp 5 "AL"
      = AutoOutcome.ok [⟨"alpha", "https://github.com/acme/alpha"⟩] := by
  have h := autocomplete_aggregates_to_exhaustion wResp wPages 1 5 "AL"
    (fun i hi => rfl)
    (by intro i hi; have h0 : i = 0 := Nat.lt_one_iff.mp hi; subst h0; decide)
    (by decide) (by decide)
  refine ⟨?_, ?_⟩
  · rw [h.1]
    decide
  · rw [h.2]
    decide

/-- Claim C5: on the first call of a sync operation the filter
parameters are encoded as query parameters on the initial list
endpoint, and an unspecified state filter defaults to open, for both
the pull-request and the issue sync operations. -/
theorem build_first_call_defaults_state_open :
    ∀ (repo : RepositoryReference) (base : Option String),
      build ResourceKind.pullRequests repo ⟨base, none⟩ none
        = ⟨endpointFor ResourceKind.pullRequests repo,
            filterQuery ⟨base, some "open"⟩⟩ ∧
      ("state", "open")
          ∈ (build ResourceKind.pullRequests repo ⟨base, none⟩ none).query ∧
      build ResourceKind.issues repo ⟨base, none⟩ none
        = ⟨endpointFor ResourceKind.issues repo,
            filterQuery ⟨base, some "open"⟩⟩ ∧
      ("state", "open")
          ∈ (build ResourceKind.issues repo ⟨base, none⟩ none).query := by
  intro repo base
  refine ⟨rfl, ?_, rfl, ?_⟩ <;> (cases base <;> simp [build, filterQuery])

/-- Claim C6: after aggregation, the autocomplete returns exactly those
collected records whose display name contains the search text as a
case-insensitive substring, in the original fetched order, each labeled
by its name and valued by its html_url. -/
theorem autocomplete_matches_in_order
    (resp : Nat → Except FetchError PageResult)
    (pages : Nat → PageResult) (n fuel : Nat) (search : String)
    (hok : ∀ i, i ≤ n → resp i = Except.ok (pages i))
    (htr : ∀ i, i < n → contTruthy (pages i).continuation = true)
    (hstop : contTruthy (pages n).continuation = false)
    (hfuel : n < fuel) :
    repoUrlAutocomplete resp fuel search
      = AutoOutcome.ok
          (((((List.range (n + 1)).map fun k =>
                (pages k).result).flatten.filter
              fun r => matchesSearch search r.name).map
            fun r => ⟨r.name, r.html_url⟩)) := by
  have h := autoLoop_settles resp pages n fuel hok htr hstop hfuel
  rw [pagesJoin_eq_flatten] at h
  unfold repoUrlAutocomplete
  rw [h]
  rfl

/-- Concrete instance of claim C6: the case-insensitive filter keeps
the matching record with its label and value. -/
theorem autocomplete_matches_in_order_witness :
    repoUrlAutocomplete wResp 5 "ET"
      = AutoOutcome.ok [⟨"beta", "https://github.com/acme/beta"⟩] := by
  have h := autocomplete_matches_in_order wResp wPages 1 5 "ET"
    (fun i hi => rfl)
    (by intro i hi; have h0 : i = 0 := Nat.lt_one_iff.mp hi; subst h0; decide)
    (by decide) (by decide)
  rw [h]
  decide

/-- Claim C7: if any page fetch inside the autocomplete fails, the
whole search fails with that underlying error kind, and never returns
the partially accumulated records as a successful result. -/
theorem autocomplete_propagates_fetch_error
    (resp : Nat → Except FetchError PageResult)
    (pages : Nat → PageResult) (n fuel : Nat) (e : FetchError)
    (search : String)
    (hok : ∀ i, i < n → resp i = Except.ok (pages i))
    (htr : ∀ i, i < n → contTruthy (pages i).continuation = true)
    (herr : resp n = Except.error e)
    (hfuel : n < fuel) :
    repoUrlAutocomplete resp fuel search = AutoOutcome.fail e ∧
    ∀ entries,
      repoUrlAutocomplete resp fuel search ≠ AutoOutcome.ok entries := by
  have h := autoLoop_settles_err resp pages n fuel e hok htr herr hfuel
  have h1 : repoUrlAutocomplete resp fuel search = AutoOutcome.fail e := by
    unfold repoUrlAutocomplete
    rw [h]
  refine ⟨h1, fun entries hc => ?_⟩
  rw [h1] at hc
  exact AutoOutcome.noConfusion hc

/-- Concrete instance of claim C7: a failing second fetch fails the
whole search. -/
theorem autocomplete_propagates_fetch_error_witness :
    repoUrlAutocomplete wRespErr 5 "a" = AutoOutcome.fail
      FetchError.transient := by
  have h := autocomplete_propagates_fetch_error wRespErr wPages 1 5
    FetchError.transient "a"
    (by intro i hi; have h0 : i = 0 := Nat.lt_one_iff.mp hi; subst h0; rfl)
    (by intro i hi; have h0 : i = 0 := Nat.lt_one_iff.mp hi; subst h0; decide)
    rfl (by decide)
  exact h.1

/-- Claim C8: a page with zero records and a null continuation is a
valid terminal page, not an error: the aggregation loop terminates
after adding nothing to the accumulated results. -/
theorem empty_terminal_page_terminates
    (resp : Nat → Except FetchError PageResult)
    (pages : Nat → PageResult) (n fuel : Nat)
    (hok : ∀ i, i < n → resp i = Except.ok (pages i))
    (htr : ∀ i, i < n → contTruthy (pages i).continuation = true)
    (hend : resp n = Except.ok ⟨[], none⟩)
    (hfuel : n < fuel) :
    autoLoop resp fuel 0 []
      = LoopOutcome.ok (pagesJoin pages 0 n) (n + 1) := by
  rw [autoLoop_shift resp pages n 0 fuel []
    (fun i h1 h2 => hok i (by omega))
    (fun i h1 h2 => htr i (by omega)) (by omega)]
  simp only [Nat.zero_add, List.nil_append]
  obtain ⟨f, hf⟩ : ∃ f, fuel - n = f + 1 := ⟨fuel - n - 1, by omega⟩
  rw [hf, autoLoop_succ, hend]
  simp [contTruthy]

/-- Concrete instance of claim C8: an empty final page terminates the
loop and adds nothing. -/
theorem empty_terminal_page_terminates_witness :
    autoLoop wRespEmptyEnd 5 0 [] = LoopOutcome.ok [wRepoA] 2 := by
  have h := empty_terminal_page_terminates wRespEmptyEnd wPagesEmptyEnd
    1 5
    (by intro i hi; have h0 : i = 0 := Nat.lt_one_iff.mp hi; subst h0; rfl)
    (by intro i hi; have h0 : i = 0 := Nat.lt_one_iff.mp hi; subst h0; decide)
    rfl (by decide)
  rw [h]
  decide

/-- Claim C9: the aggregation loop terminates not only on a null
continuation but also on a non-null continuation whose nextUrl is
absent or empty: whenever page n returns such a continuation, the loop
performs exactly n + 1 fetches and stops. -/
theorem loop_stops_on_falsy_nextUrl
    (resp : Nat → Except FetchError PageResult)
    (pages : Nat → PageResult) (n fuel : Nat) (c : Continuation)
    (hok : ∀ i, i ≤ n → resp i = Except.ok (pages i))
    (htr : ∀ i, i < n → contTruthy (pages i).continuation = true)
    (hc : (pages n).continuation = some c)
    (hurl : c.nextUrl = none ∨ c.nextUrl = some "")
    (hfuel : n < fuel) :
    autoLoop resp fuel 0 []
      = LoopOutcome.ok (pagesJoin pages 0 (n + 1)) (n + 1) := by
  have hstop : contTruthy (pages n).continuation = false := by
    rw [hc]
    show (match c.nextUrl with
      | none => false
      | some s => !s.isEmpty) = false
    rcases hurl with h | h
    · rw [h]
    · rw [h]
      decide
  exact autoLoop_settles resp pages n fuel hok htr hstop hfuel

/-- Concrete instance of claim C9: a non-null continuation with an
empty nextUrl stops the loop after the second fetch. -/
theorem loop_stops_on_falsy_nextUrl_witness :
    autoLoop wRespEmptyUrl 5 0 [] = LoopOutcome.ok [wRepoA, wRepoB] 2
    := by
  have h := loop_stops_on_falsy_nextUrl wRespEmptyUrl wPagesEmptyUrl
    1 5 ⟨some ""⟩
    (fun i hi => rfl)
    (by intro i hi; have h0 : i = 0 := Nat.lt_one_iff.mp hi; subst h0; decide)
    (by decide) (Or.inr rfl) (by decide)
  rw [h]
  decide

/-- Claim C10: at the public interface of the mutation actions,
CreateIssue requires title while body, labels and assignees are
optional, labels and assignees being plain comma-separated strings and
not lists; UpdateIssue requires repoUrl and issueNumber while title,
body and state are optional. -/
theorem mutation_parameter_interface :
    requiredNames CreateIssueParameters = ["repoUrl", "title"] ∧
    optionalNames CreateIssueParameters = ["body", "labels", "assignees"] ∧
    LabelsParameter.ptype = ParameterType.string ∧
    AssigneesParameter.ptype = ParameterType.string ∧
    requiredNames UpdateIssueParameters = ["repoUrl", "issueNumber"] ∧
    optionalNames UpdateIssueParameters = ["title", "body", "state"] ∧
    IssueNumberParameter.ptype = ParameterType.number :=
  ⟨rfl, rfl, rfl, rfl, rfl, rfl, rfl⟩

end GithubPack
